import Mathlib

/-!
Verification of the pcdpy point-cloud library (Rust sources under src/)
against its natural-language specification.

Shallow embedding conventions:
* Rust `usize` values are modelled as `Nat` (no claim exercises overflow).
* `f32`/`f64` field payloads are modelled by their little-endian IEEE bit
  patterns carried as integers: every codec operation in the source moves
  bit patterns (`to_le_bytes` / `from_le_bytes`); no claim requires float
  arithmetic on field values.
* Fallible Rust code returns `Res`: `ok` for `Ok`, `err` for a returned
  `anyhow`/`PyErr` error (errors are identified by which `bail!`/`new_err`
  site produced them), `panicked` for a Rust panic (`unwrap`, `assert!`,
  `todo!`, out-of-range `ndarray` slicing).
* `HashMap<String, FieldData>` is modelled as an association list with
  unique keys; the claims never depend on iteration order of more than one
  stored field.
-/

namespace Pcdpy

/-- Error values, one per distinct `bail!` / `new_err` / `ok_or_else` site in
the source that a claim can observe. -/
inductive PcdError where
  | unexpectedEof
  | emptyLineInMetadata
  | invalidVersionLine
  | invalidFieldsLine
  | invalidSizeLine
  | invalidTypeLine
  | invalidCountLine
  | invalidWidthLine
  | invalidHeightLine
  | invalidPointsLine
  | invalidDataLine
  | invalidEncoding
  | invalidMetadataLine
  | missingVersion
  | missingFields
  | missingSize
  | missingType
  | missingCount
  | missingWidth
  | missingHeight
  | missingPoints
  | missingDataEncoding
  | decompressionFailure
  | ioFailure
  | invariantHeightWidth
  | invariantFieldCount
  | fieldDtypeMismatch
  | fieldLengthMismatch
  | fieldNotInMetadata
  | sliceLengthMismatch
  | fieldTypeMismatch
deriving DecidableEq, Repr

/-- Panic sites reachable in the embedded code (`unwrap` on a parse,
`Dtype::from_type_size`'s catch-all, `assert!` in `Viewpoint::from` and the
buffer assigners, `todo!`, and out-of-range `ndarray` slicing). -/
inductive PanicKind where
  | unwrapFailed
  | unsupportedDtype
  | viewpointArity
  | bufferLenMismatch
  | indexOutOfRange
  | ndarraySlice
  | divideByZero
  | todoUnimplemented
deriving DecidableEq, Repr

/-- Outcome of running a piece of Rust code: success, a recoverable returned
error, or a panic. -/
inductive Res (α : Type) where
  | ok (a : α)
  | err (e : PcdError)
  | panicked (p : PanicKind)
deriving DecidableEq, Repr

/-- Embedding of `Dtype` (src/metadata.rs): the closed enumeration of the 10
numeric element types. -/
inductive Dtype where
  | U8 | U16 | U32 | U64
  | I8 | I16 | I32 | I64
  | F32 | F64
deriving DecidableEq, Repr

namespace Dtype

/-- Embedding of `Dtype::get_size` (src/metadata.rs). -/
def getSize : Dtype → Nat
  | .U8 | .I8 => 1
  | .U16 | .I16 => 2
  | .U32 | .I32 | .F32 => 4
  | .U64 | .I64 | .F64 => 8

/-- Embedding of `Dtype::get_type` (src/metadata.rs). -/
def getType : Dtype → String
  | .U8 | .U16 | .U32 | .U64 => "U"
  | .I8 | .I16 | .I32 | .I64 => "I"
  | .F32 | .F64 => "F"

/-- Embedding of `Dtype::from_type_size` (src/metadata.rs). The source
panics on an unsupported pair; that is modelled as `none` and turned into
`Res.panicked .unsupportedDtype` at the call site. -/
def fromTypeSize (t : String) (s : Nat) : Option Dtype :=
  if t = ("U") ∧ s = 1 then some .U8
  else if t = ("U") ∧ s = 2 then some .U16
  else if t = ("U") ∧ s = 4 then some .U32
  else if t = ("U") ∧ s = 8 then some .U64
  else if t = ("I") ∧ s = 1 then some .I8
  else if t = ("I") ∧ s = 2 then some .I16
  else if t = ("I") ∧ s = 4 then some .I32
  else if t = ("I") ∧ s = 8 then some .I64
  else if t = ("F") ∧ s = 4 then some .F32
  else if t = ("F") ∧ s = 8 then some .F64
  else none

/-- Embedding of `Dtype::from_numpy_dtype` (src/metadata.rs). -/
def fromNumpyDtype (d : String) : Option Dtype :=
  if d = ("uint8") then some .U8
  else if d = ("uint16") then some .U16
  else if d = ("uint32") then some .U32
  else if d = ("uint64") then some .U64
  else if d = ("int8") then some .I8
  else if d = ("int16") then some .I16
  else if d = ("int32") then some .I32
  else if d = ("int64") then some .I64
  else if d = ("float32") then some .F32
  else if d = ("float64") then some .F64
  else none

/-- Embedding of `Dtype::as_numpy_dtype` (src/metadata.rs). -/
def asNumpyDtype : Dtype → String
  | .U8 => "uint8"
  | .U16 => "uint16"
  | .U32 => "uint32"
  | .U64 => "uint64"
  | .I8 => "int8"
  | .I16 => "int16"
  | .I32 => "int32"
  | .I64 => "int64"
  | .F32 => "float32"
  | .F64 => "float64"

end Dtype

/-- Embedding of `Viewpoint` (src/metadata.rs). The seven `f32` components
are modelled as rationals; every value a claim observes is an exactly
representable small number, so `f32` rounding never shows. -/
structure Viewpoint where
  tx : Rat
  ty : Rat
  tz : Rat
  qw : Rat
  qx : Rat
  qy : Rat
  qz : Rat
deriving DecidableEq, Repr

/-- Embedding of `Viewpoint::default` (src/metadata.rs): the identity pose. -/
def Viewpoint.identity : Viewpoint := ⟨0, 0, 0, 1, 0, 0, 0⟩

/-- Embedding of `Encoding` (src/metadata.rs). -/
inductive Encoding where
  | Ascii
  | Binary
  | BinaryCompressed
deriving DecidableEq, Repr

/-- Embedding of `Encoding::from_str` (src/metadata.rs). -/
def Encoding.fromStr (s : String) : Option Encoding :=
  if s = ("ascii") then some .Ascii
  else if s = ("binary") then some .Binary
  else if s = ("binary_compressed") then some .BinaryCompressed
  else none

/-- Embedding of `FieldMeta` (src/metadata.rs). -/
structure FieldMeta where
  name : String
  dtype : Dtype
  count : Nat
deriving DecidableEq, Repr

/-- Embedding of `Metadata` (src/metadata.rs). The `FieldSchema` newtype is
inlined as the list of `FieldMeta`; the `Arc<RwLock<..>>` sharing wrapper is
dropped because the embedded operations are sequential. -/
structure Metadata where
  fields : List FieldMeta
  width : Nat
  height : Nat
  npoints : Nat
  viewpoint : Viewpoint
  encoding : Encoding
  version : String
deriving DecidableEq, Repr

/-- Ceiling division on naturals: `(a + b - 1) / b`. Used to embed the
source's `(a as f32 / b as f32).ceil() as usize`: for `a, b ≤ 2^24` (exactly
representable in `f32`) the rounded `f32` quotient can never cross an
integer boundary, so its ceiling equals exact ceiling division. -/
def ceilDivNat (a b : Nat) : Nat := (a + b - 1) / b

/-- Embedding of `Metadata::trim` (src/metadata.rs): sets `npoints := n` and
recomputes width and height by the source's two ceiling divisions. -/
def Metadata.trim (md : Metadata) (n : Nat) : Metadata :=
  let newWidth := ceilDivNat n md.height
  { md with npoints := n, width := newWidth, height := ceilDivNat n newWidth }

/-- Concrete metadata used in counterexamples: an organized 2x2 cloud with
an empty schema. -/
def mdGrid22 : Metadata :=
  { fields := []
  , width := 2
  , height := 2
  , npoints := 4
  , viewpoint := Viewpoint.identity
  , encoding := .Ascii
  , version := "0.7" }

/-- Ceiling division bound: `b * ceilDivNat a b ≥ a` when `b > 0`. -/
theorem le_mul_ceilDivNat (a b : Nat) (hb : 0 < b) : a ≤ b * ceilDivNat a b := by
  unfold ceilDivNat
  have hdm := Nat.div_add_mod (a + b - 1) b
  have hlt : (a + b - 1) % b < b := Nat.mod_lt _ hb
  omega

/-- The first recomputed quantity in `trim` is positive when `n` is. -/
theorem ceilDivNat_pos (a b : Nat) (ha : 0 < a) (hb : 0 < b) : 0 < ceilDivNat a b := by
  unfold ceilDivNat
  exact Nat.lt_of_lt_of_le (Nat.zero_lt_one) (Nat.le_div_iff_mul_le hb |>.mpr (by omega))

/-- Embedding of `FieldData` (src/fielddata.rs). The source is a 10-variant
enum, one `Array2<T>` per dtype; here the variant tag is the `dtype` field
and the dense `(npoints, count)` matrix is `rows` (row-major, like
`ndarray`'s standard layout), with elements as integers (semantic value for
the 8 integer dtypes, IEEE bit pattern for `F32`/`F64`). `count` is kept
explicitly because `Array2` retains its column count even with zero rows. -/
structure FieldData where
  dtype : Dtype
  count : Nat
  rows : List (List Int)
deriving DecidableEq, Repr

namespace FieldData

/-- Embedding of `FieldData::npoints` (src/fielddata.rs): `shape()[0]`. -/
def npoints (fd : FieldData) : Nat := fd.rows.length

/-- Embedding of `FieldData::len` (src/fielddata.rs): `Array2::len()`, the
total number of elements, i.e. the product of the shape. -/
def len (fd : FieldData) : Nat := fd.rows.length * fd.count

/-- Embedding of `FieldData::new` (src/fielddata.rs): a zero-filled
`(npoints, count)` store of the given dtype. -/
def new (d : Dtype) (np c : Nat) : FieldData :=
  ⟨d, c, List.replicate np (List.replicate c 0)⟩

end FieldData

/-- Number of rows selected by an `ndarray` strided slice
`s![start..stop;step]`: the source computes it as
`(stop.saturating_sub(start) + step - 1) / step`
(src/fielddata.rs, `update_slice_strided`). -/
def numStrided (start stop step : Nat) : Nat := (stop - start + step - 1) / step

/-- The row indices selected by `s![start..stop;step]`:
`start, start+step, ...`, `numStrided` of them. -/
def stridedIdx (start stop step : Nat) : List Nat :=
  (List.range (numStrided start stop step)).map (fun i => start + i * step)

/-- Embedding of `FieldData::slice` (src/fielddata.rs, `match_slice`): a new
store of the same dtype holding the strided row selection, same column
count. All 10 source arms perform the identical `ndarray` strided slice.
`ndarray` panics on out-of-range slices; callers stay in bounds. -/
def FieldData.slice (fd : FieldData) (start stop step : Nat) : FieldData :=
  ⟨fd.dtype, fd.count, (stridedIdx start stop step).map (fun i => fd.rows.getD i [])⟩

/-- The imperative strided assignment at the heart of
`update_slice_strided`: for each index pair `(oi, ni)` overwrite row `oi` of
`rows` with row `ni` of `orows`. -/
def setRows (rows orows : List (List Int)) (pairs : List (Nat × Nat)) :
    List (List Int) :=
  pairs.foldl (fun acc p => acc.set p.1 (orows.getD p.2 [])) rows

/-- Embedding of `FieldData::update_slice_strided` (src/fielddata.rs).
Mirrors the source's order: a zero step makes the row-count formula divide
by zero (a panic, before anything else), then the length check, then the
dtype match (the catch-all arm is the dtype-mismatch error), then the
`ndarray` slice/assign, which panics when a range is out of bounds or the
column counts differ. (`ndarray`'s `assign` would broadcast a one-column
donor across a wider target; that corner is modelled as the shape panic
since no claim exercises column broadcasting.) The returned pair is
(call result, final state of `self`) — the source mutates `self` in place
only in the successful arm. -/
def FieldData.updateSliceStrided (self other : FieldData)
    (oStart oStop oStep nStart nStop nStep : Nat) : Res Unit × FieldData :=
  if oStep = 0 ∨ nStep = 0 then (.panicked .divideByZero, self)
  else
    let nOrig := numStrided oStart oStop oStep
    let nNew := numStrided nStart nStop nStep
    if nOrig ≠ nNew then (.err .sliceLengthMismatch, self)
    else if self.dtype ≠ other.dtype then (.err .fieldTypeMismatch, self)
    else if oStop < oStart ∨ self.npoints < oStop ∨
        nStop < nStart ∨ other.npoints < nStop ∨ self.count ≠ other.count then
      (.panicked .ndarraySlice, self)
    else
      (.ok (), ⟨self.dtype, self.count,
        setRows self.rows other.rows
          ((stridedIdx oStart oStop oStep).zip (stridedIdx nStart nStop nStep))⟩)

/-- Selecting every row with step 1 selects `stop - start` rows. -/
theorem numStrided_one (a b : Nat) : numStrided a b 1 = b - a := by
  unfold numStrided
  simp

/-- The strided index list has `numStrided` entries. -/
theorem stridedIdx_length (a b s : Nat) :
    (stridedIdx a b s).length = numStrided a b s := by
  unfold stridedIdx
  rw [List.length_map, List.length_range]

/-- Reading a mapped range at an in-range position. -/
theorem getD_map_range {α : Type} (f : Nat → α) (n i : Nat) (h : i < n) (d : α) :
    ((List.range n).map f).getD i d = f i := by
  rw [List.getD_eq_getElem?_getD, List.getElem?_map, List.getElem?_range h]
  rfl

/-- Rebuilding a list by reading every position gives the list back. -/
theorem map_getD_range {α : Type} (l : List α) (d : α) :
    (List.range l.length).map (fun i => l.getD i d) = l := by
  apply List.ext_getElem
  · rw [List.length_map, List.length_range]
  · intro i h1 h2
    rw [List.getElem_map, List.getElem_range,
      List.getD_eq_getElem?_getD, List.getElem?_eq_getElem h2]
    rfl

/-- `setRows` never changes the number of rows. -/
theorem setRows_length (rows orows : List (List Int)) (pairs : List (Nat × Nat)) :
    (setRows rows orows pairs).length = rows.length := by
  induction pairs generalizing rows with
  | nil => rfl
  | cons p ps ih =>
      unfold setRows
      rw [List.foldl_cons]
      exact (ih (rows.set p.1 (orows.getD p.2 []))).trans (List.length_set rows p.1 _)

/-- Unfolding equation: `setRows` over an appended pair list. -/
theorem setRows_append (rows orows : List (List Int))
    (xs ys : List (Nat × Nat)) :
    setRows rows orows (xs ++ ys) = setRows (setRows rows orows xs) orows ys := by
  unfold setRows
  rw [List.foldl_append]

/-- Unfolding equation: `setRows` with a single pair. -/
theorem setRows_single (rows orows : List (List Int)) (oi ni : Nat) :
    setRows rows orows [(oi, ni)] = rows.set oi (orows.getD ni []) := rfl

/-- Frame property of `setRows`: positions not named on the left of any
pair keep their previous contents. -/
theorem setRows_getD_not_mem (rows orows : List (List Int))
    (pairs : List (Nat × Nat)) (j : Nat) (h : j ∉ pairs.map Prod.fst) :
    (setRows rows orows pairs).getD j [] = rows.getD j [] := by
  induction pairs generalizing rows with
  | nil => rfl
  | cons p ps ih =>
      rw [List.map_cons, List.mem_cons, not_or] at h
      have hcons : setRows rows orows (p :: ps) =
          setRows (rows.set p.1 (orows.getD p.2 [])) orows ps := rfl
      rw [hcons, ih (rows.set p.1 (orows.getD p.2 [])) h.2,
        List.getD_eq_getElem?_getD,
        List.getElem?_set_ne (fun hpj => h.1 hpj.symm),
        ← List.getD_eq_getElem?_getD]

/-- Reading back a consecutive run of row assignments: after assigning rows
`a+t := orows[b+t]` for `t < k`, position `a + i` (for `i < k`, in range)
holds `orows[b+i]`. -/
theorem setRows_seq_getD (rows orows : List (List Int)) (a b k i : Nat)
    (hik : i < k) (hlen : a + i < rows.length) :
    (setRows rows orows ((List.range k).map (fun t => (a + t, b + t)))).getD (a + i) [] =
      orows.getD (b + i) [] := by
  induction k with
  | zero => omega
  | succ k' ih =>
      rw [List.range_succ, List.map_append, List.map_cons, List.map_nil,
        setRows_append, setRows_single]
      rcases Nat.lt_or_ge i k' with hik' | hik'
      · have hne : a + k' ≠ a + i := by omega
        rw [List.getD_eq_getElem?_getD, List.getElem?_set_ne hne,
          ← List.getD_eq_getElem?_getD]
        exact ih hik'
      · have hieq : i = k' := by omega
        subst hieq
        have hlen' : a + i <
            (setRows rows orows ((List.range i).map (fun t => (a + t, b + t)))).length := by
          rw [setRows_length]
          exact hlen
        rw [List.getD_eq_getElem?_getD, List.getElem?_set_self hlen']
        rfl

/-- Little-endian value of a byte list (bytes are naturals below 256). -/
def leNat (bs : List Nat) : Nat := bs.foldr (fun b acc => b + 256 * acc) 0

/-- Two's-complement reading of a `w`-byte little-endian unsigned value,
embedding Rust's `iN::from_le_bytes`. -/
def signedOfLe (w : Nat) (u : Nat) : Int :=
  if u < 2 ^ (8 * w - 1) then (u : Int) else (u : Int) - 2 ^ (8 * w)

/-- Decode one element of the given dtype from its little-endian byte
chunk, embedding the per-variant `from_le_bytes` calls (and the `as i8`
cast) of `match_assign_from_buffer` (src/fielddata.rs). Floats keep their
IEEE bit patterns. -/
def decodeElem (d : Dtype) (bs : List Nat) : Int :=
  match d with
  | .U8 | .U16 | .U32 | .U64 => Int.ofNat (leNat bs)
  | .I8 => signedOfLe 1 (leNat bs)
  | .I16 => signedOfLe 2 (leNat bs)
  | .I32 => signedOfLe 4 (leNat bs)
  | .I64 => signedOfLe 8 (leNat bs)
  | .F32 | .F64 => Int.ofNat (leNat bs)

/-- Fuel-driven worker for `chunksExact`; the fuel starts at the list
length, which bounds the number of chunks. -/
def chunksExactGo {α : Type} (n : Nat) : Nat → List α → List (List α)
  | 0, _ => []
  | fuel + 1, l =>
    if n = 0 ∨ l.length < n then []
    else l.take n :: chunksExactGo n fuel (l.drop n)

/-- Embedding of `slice::chunks_exact(n)`: consecutive chunks of length
`n`, any shorter remainder dropped. -/
def chunksExact {α : Type} (n : Nat) (l : List α) : List (List α) :=
  chunksExactGo n l.length l

/-- Writing a flat element list into a row-major `(np, c)` matrix, the
shape `ndarray` keeps across `assign_from_buffer`. -/
def reshapeRows (np c : Nat) (flat : List Int) : List (List Int) :=
  (List.range np).map (fun i => (flat.drop (i * c)).take c)

/-- Embedding of `FieldData::assign_from_buffer` (src/fielddata.rs,
`match_assign_from_buffer`): asserts the byte length equals
`len * size_of(dtype)` (panic on mismatch), then refills the whole matrix
row-major from consecutive little-endian chunks. -/
def FieldData.assignFromBuffer (fd : FieldData) (buffer : List Nat) : Res FieldData :=
  let dsize := fd.dtype.getSize
  if buffer.length ≠ fd.len * dsize then .panicked .bufferLenMismatch
  else
    let flat := (chunksExact dsize buffer).map (decodeElem fd.dtype)
    .ok ⟨fd.dtype, fd.count, reshapeRows fd.rows.length fd.count flat⟩

/-- Embedding of `PointCloud` (src/pointcloud.rs): the
`HashMap<String, FieldData>` as an association list with unique keys, and
the shared metadata as a plain field. -/
structure PointCloud where
  fields : List (String × FieldData)
  metadata : Metadata
deriving DecidableEq, Repr

/-- Lookup in the field map, embedding `HashMap::get`. -/
def lookupField (m : List (String × FieldData)) (k : String) : Option FieldData :=
  (m.find? (fun p => p.fst = k)).map Prod.snd

/-- Insert-or-replace in the field map, embedding `HashMap::insert` /
mutation through `get_mut`. -/
def insertField (m : List (String × FieldData)) (k : String) (v : FieldData) :
    List (String × FieldData) :=
  if (m.find? (fun p => p.fst = k)).isSome then
    m.map (fun p => if p.fst = k then (k, v) else p)
  else m ++ [(k, v)]

/-- Embedding of `PointCloud::new` (src/pointcloud.rs): one zero-filled
`FieldData` per schema entry. -/
def PointCloud.new (md : Metadata) : PointCloud :=
  { fields := md.fields.foldl
      (fun acc f => insertField acc f.name (FieldData.new f.dtype md.npoints f.count))
      []
  , metadata := md }

/-- The per-field loop of `PointCloud::check_pointcloud`
(src/pointcloud.rs): find the schema entry by name, compare dtypes, then
compare `FieldData::len()` — the total element count — against
`npoints`. -/
def checkFields (md : Metadata) : List (String × FieldData) → Res Bool
  | [] => .ok true
  | (name, fd) :: rest =>
    match md.fields.find? (fun f => f.name = name) with
    | none => .err .fieldNotInMetadata
    | some fm =>
      if fd.dtype ≠ fm.dtype then .err .fieldDtypeMismatch
      else if fd.len ≠ md.npoints then .err .fieldLengthMismatch
      else checkFields md rest

/-- Embedding of `PointCloud::check_pointcloud` (src/pointcloud.rs). -/
def PointCloud.checkPointcloud (pc : PointCloud) : Res Bool :=
  if pc.metadata.height * pc.metadata.width ≠ pc.metadata.npoints then
    .err .invariantHeightWidth
  else if pc.metadata.fields.length ≠ pc.fields.length then
    .err .invariantFieldCount
  else checkFields pc.metadata pc.fields

/-- Embedding of `read_u32::<LittleEndian>` on a byte stream: the next four
bytes little-endian, or an I/O error at end of input. -/
def readU32LE (input : List Nat) : Option (Nat × List Nat) :=
  match input with
  | b0 :: b1 :: b2 :: b3 :: rest => some (leNat [b0, b1, b2, b3], rest)
  | _ => none

/-- The per-field loop of `PointCloud::read_compressed`
(src/pointcloud.rs): walk the schema in order, slice
`count * size * npoints` bytes at the running offset out of the buffer
(`ndarray`-style range indexing panics when past the end), and hand the
slice to `assign_from_buffer`. -/
def assignFieldsCompressed (buf : List Nat) (np : Nat) :
    List FieldMeta → Nat → List (String × FieldData) →
      Res (List (String × FieldData))
  | [], _, m => .ok m
  | fm :: fms, offset, m =>
    let blockSize := fm.count * fm.dtype.getSize * np
    if buf.length < offset + blockSize then .panicked .indexOutOfRange
    else
      match lookupField m fm.name with
      | none => .panicked .unwrapFailed
      | some fd =>
        match fd.assignFromBuffer ((buf.drop offset).take blockSize) with
        | .ok fd2 => assignFieldsCompressed buf np fms (offset + blockSize)
            (insertField m fm.name fd2)
        | .err e => .err e
        | .panicked p => .panicked p

/-- Embedding of `PointCloud::read_compressed` (src/pointcloud.rs),
including its defect: the source allocates `uncompressed_buf` as
`vec![0u8; uncompressed_size]`, calls `decompress` only for its error
effect, DISCARDS the decompressed bytes, and then slices the still-zeroed
`uncompressed_buf` column-major by field. The external `lzf::decompress`
is a parameter (its crate is outside src/); `none` models its error. -/
def PointCloud.readCompressed (pc : PointCloud)
    (decompress : List Nat → Nat → Option (List Nat)) (input : List Nat) :
    Res PointCloud :=
  match readU32LE input with
  | none => .err .ioFailure
  | some (compressedSize, r1) =>
    match readU32LE r1 with
    | none => .err .ioFailure
    | some (uncompressedSize, r2) =>
      if r2.length < compressedSize then .err .ioFailure
      else
        let compressedBuf := r2.take compressedSize
        let uncompressedBuf := List.replicate uncompressedSize 0
        match decompress compressedBuf uncompressedSize with
        | none => .err .decompressionFailure
        | some _ =>
          match assignFieldsCompressed uncompressedBuf pc.metadata.npoints
              pc.metadata.fields 0 pc.fields with
          | .ok m => .ok { pc with fields := m }
          | .err e => .err e
          | .panicked p => .panicked p

/-- Embedding of `PointCloud::to_pcd_file` (src/pointcloud.rs): the source
body is `todo!()`, which unconditionally panics with `not yet implemented`. -/
def PointCloud.toPcdFile (_self : PointCloud) (_path : String) : Res Unit :=
  .panicked .todoUnimplemented

/-- The spec's example schema: fields x, y, z, each `F32` count 1, two
points in a 2x1 grid, compressed encoding. -/
def mdXYZ : Metadata :=
  { fields := [⟨"x", .F32, 1⟩, ⟨"y", .F32, 1⟩, ⟨"z", .F32, 1⟩]
  , width := 2
  , height := 1
  , npoints := 2
  , viewpoint := Viewpoint.identity
  , encoding := .BinaryCompressed
  , version := "0.7" }

/-- The spec example's decompressed column-major buffer: little-endian
`f32` bytes of x = 1.0, 4.0, then y = 2.0, 5.0, then z = 3.0, 6.0. -/
def colBufXYZ : List Nat :=
  [0, 0, 128, 63, 0, 0, 128, 64,
   0, 0, 0, 64, 0, 0, 160, 64,
   0, 0, 64, 64, 0, 0, 192, 64]

/-- A `binary_compressed` payload carrying that buffer: 4-byte LE
compressed length 24, 4-byte LE uncompressed length 24, then the 24
compressed bytes (the witness decompressor maps them back to the column
buffer). -/
def payloadXYZ : List Nat :=
  [24, 0, 0, 0] ++ [24, 0, 0, 0] ++ colBufXYZ

/-- Metadata with a single three-wide `U8` field over two points, used to
exercise `check_pointcloud` on a `count > 1` schema. -/
def mdVec : Metadata :=
  { fields := [⟨"v", .U8, 3⟩]
  , width := 2
  , height := 1
  , npoints := 2
  , viewpoint := Viewpoint.identity
  , encoding := .Ascii
  , version := "0.7" }

/-- The freshly constructed point cloud for `mdVec`: a 2x3 zero matrix. -/
def pcVec : PointCloud := PointCloud.new mdVec

/-- Digits-only numeral parser used by the numeric parsers below. -/
def parseDigits? (cs : List Char) : Option Nat :=
  if cs.isEmpty then none
  else cs.foldl (fun acc? c => acc?.bind (fun acc =>
    if c.isDigit then some (acc * 10 + (c.toNat - 48)) else none)) (some 0)

/-- Embedding of `str::parse::<usize>`: an optional `+` sign then decimal
digits; anything else fails (the source `unwrap`s, turning failure into a
panic). -/
def parseUsize? (cs : List Char) : Option Nat :=
  match cs with
  | c :: rest => if c = '+' then parseDigits? rest else parseDigits? cs
  | [] => none

/-- Restriction of Rust's `str::parse::<f32>` to plain decimal literals
(optional sign, digits, optional fractional part), as exact rationals.
Exponents, inf/NaN and `f32` rounding are not modelled: no settled claim
inspects a parsed viewpoint value. -/
def parseF32? (cs : List Char) : Option Rat :=
  let signed := match cs with
    | c :: rest =>
      if c = '-' then (true, rest) else if c = '+' then (false, rest) else (false, cs)
    | [] => (false, ([] : List Char))
  let neg := signed.1
  let body := signed.2
  let intPart := body.takeWhile (fun c => c ≠ '.')
  match body.dropWhile (fun c => c ≠ '.') with
  | [] => (parseDigits? intPart).map (fun n => if neg then -(n : Rat) else (n : Rat))
  | _ :: frac =>
    match parseDigits? intPart, parseDigits? frac with
    | some n, some f =>
      let v : Rat := (n : Rat) + (f : Rat) / ((10 : Rat) ^ frac.length)
      some (if neg then -v else v)
    | _, _ => none

/-- Embedding of `str::trim`: drop whitespace from both ends. -/
def trimL (cs : List Char) : List Char :=
  ((cs.dropWhile Char.isWhitespace).reverse.dropWhile Char.isWhitespace).reverse

/-- Embedding of `.split('#').next()` on the trimmed line: everything
before the first `#` (the whole line when there is none). -/
def beforeHash (cs : List Char) : List Char :=
  cs.takeWhile (fun c => c ≠ '#')

/-- Accumulating worker for `tokenize`. -/
def tokenizeGo : List Char → List Char → List (List Char) → List (List Char)
  | [], cur, acc => (if cur.isEmpty then acc else cur.reverse :: acc).reverse
  | c :: rest, cur, acc =>
    if c.isWhitespace then
      tokenizeGo rest [] (if cur.isEmpty then acc else cur.reverse :: acc)
    else tokenizeGo rest (c :: cur) acc

/-- Embedding of `str::split_ascii_whitespace`: maximal runs of
non-whitespace characters, in order. -/
def tokenize (cs : List Char) : List (List Char) := tokenizeGo cs [] []

/-- Parse every token as a `usize`, embedding the source's
`.map(|s| s.parse().unwrap())` (`none` models the panic). -/
def parseNatList? (ts : List (List Char)) : Option (List Nat) :=
  ts.mapM parseUsize?

/-- The mutable `Option` slots of `load_metadata`'s scan loop
(src/utils.rs): one per header key, `DATA` handled at the break. -/
structure HeaderAcc where
  version : Option String
  names : Option (List String)
  sizes : Option (List Nat)
  typesL : Option (List String)
  counts : Option (List Nat)
  width : Option Nat
  height : Option Nat
  viewpoint : Option Viewpoint
  npoints : Option Nat
deriving DecidableEq, Repr

/-- All slots start out empty. -/
def HeaderAcc.init : HeaderAcc :=
  ⟨none, none, none, none, none, none, none, none, none⟩

/-- Embedding of `Viewpoint::from` applied to a parsed 7-value list (the
arity assert is checked by the caller). -/
def vpOfList (vs : List Rat) : Viewpoint :=
  ⟨vs.getD 0 0, vs.getD 1 0, vs.getD 2 0, vs.getD 3 0,
   vs.getD 4 0, vs.getD 5 0, vs.getD 6 0⟩

/-- Outcome of one iteration of the scan loop: keep scanning with updated
slots, break at `DATA`, return an error, or panic. -/
inductive StepOut where
  | cont (acc : HeaderAcc)
  | done (acc : HeaderAcc) (enc : Encoding)
  | fail (e : PcdError)
  | die (p : PanicKind)
deriving DecidableEq, Repr

/-- One iteration of `load_metadata`'s loop (src/utils.rs): trim the line,
keep what precedes the first `#`, skip if empty, split into tokens, and
dispatch on the key. Numeric tokens go through `parse().unwrap()` (panic on
failure); `VIEWPOINT` has no token-count check but `Viewpoint::from`
asserts exactly 7 values. -/
def stepLine (acc : HeaderAcc) (line : String) : StepOut :=
  let s := beforeHash (trimL line.toList)
  if s.isEmpty then .cont acc
  else
    match tokenize s with
    | [] => .fail .emptyLineInMetadata
    | key :: args =>
      if key = ("VERSION").toList then
        if args.length ≠ 1 then .fail .invalidVersionLine
        else .cont { acc with version := some (String.mk (args.headD [])) }
      else if key = ("FIELDS").toList then
        if args.length < 1 then .fail .invalidFieldsLine
        else .cont { acc with names := some (args.map String.mk) }
      else if key = ("SIZE").toList then
        if args.length < 1 then .fail .invalidSizeLine
        else match parseNatList? args with
          | none => .die .unwrapFailed
          | some ns => .cont { acc with sizes := some ns }
      else if key = ("TYPE").toList then
        if args.length < 1 then .fail .invalidTypeLine
        else .cont { acc with typesL := some (args.map String.mk) }
      else if key = ("COUNT").toList then
        if args.length < 1 then .fail .invalidCountLine
        else match parseNatList? args with
          | none => .die .unwrapFailed
          | some ns => .cont { acc with counts := some ns }
      else if key = ("WIDTH").toList then
        if args.length ≠ 1 then .fail .invalidWidthLine
        else match parseUsize? (args.headD []) with
          | none => .die .unwrapFailed
          | some n => .cont { acc with width := some n }
      else if key = ("HEIGHT").toList then
        if args.length ≠ 1 then .fail .invalidHeightLine
        else match parseUsize? (args.headD []) with
          | none => .die .unwrapFailed
          | some n => .cont { acc with height := some n }
      else if key = ("VIEWPOINT").toList then
        match args.mapM parseF32? with
        | none => .die .unwrapFailed
        | some vs =>
          if vs.length ≠ 7 then .die .viewpointArity
          else .cont { acc with viewpoint := some (vpOfList vs) }
      else if key = ("POINTS").toList then
        if args.length ≠ 1 then .fail .invalidPointsLine
        else match parseUsize? (args.headD []) with
          | none => .die .unwrapFailed
          | some n => .cont { acc with npoints := some n }
      else if key = ("DATA").toList then
        if args.length ≠ 1 then .fail .invalidDataLine
        else match Encoding.fromStr (String.mk (args.headD [])) with
          | none => .fail .invalidEncoding
          | some e => .done acc e
      else .fail .invalidMetadataLine

/-- The scan loop of `load_metadata` (src/utils.rs): iterate `stepLine`
over the lines until `DATA` breaks it; running out of lines is the
unexpected-EOF error. -/
def loadLoop : List String → HeaderAcc → Res (HeaderAcc × Encoding × List String)
  | [], _ => .err .unexpectedEof
  | line :: rest, acc =>
    match stepLine acc line with
    | .cont a => loadLoop rest a
    | .done a e => .ok (a, e, rest)
    | .fail e => .err e
    | .die p => .panicked p

/-- Sequential composition on `Res`, embedding `?` propagation. -/
def Res.andThen {α β : Type} : Res α → (α → Res β) → Res β
  | .ok a, f => f a
  | .err e, _ => .err e
  | .panicked p, _ => .panicked p

/-- Embedding of `.ok_or_else(|| anyhow!(..))?` on an `Option` slot. -/
def require {α : Type} (o : Option α) (e : PcdError) : Res α :=
  match o with
  | some a => .ok a
  | none => .err e

/-- The schema construction of `load_metadata` (src/utils.rs): zip
FIELDS, SIZE, TYPE, COUNT by position — `zip` silently truncates to the
shortest list — and resolve each (TYPE, SIZE) pair through
`Dtype::from_type_size`, which panics (`none`) on an unsupported pair. -/
def zip4Schema (names : List String) (sizes : List Nat) (ts : List String)
    (counts : List Nat) : Option (List FieldMeta) :=
  (((names.zip sizes).zip ts).zip counts).mapM
    (fun x => (Dtype.fromTypeSize x.1.2 x.1.1.2).map
      (fun d => ⟨x.1.1.1, d, x.2⟩))

/-- Embedding of `load_metadata` (src/utils.rs): run the scan loop, then
check the required slots in the source's order (VERSION, FIELDS, SIZE,
TYPE, COUNT, WIDTH, HEIGHT, then POINTS), default the viewpoint to the
identity pose, and build the schema. Returns the metadata together with
the unread remainder of the input. -/
def loadMetadata (lines : List String) : Res (Metadata × List String) :=
  Res.andThen (loadLoop lines HeaderAcc.init) (fun r =>
  Res.andThen (require r.1.version .missingVersion) (fun version =>
  Res.andThen (require r.1.names .missingFields) (fun names =>
  Res.andThen (require r.1.sizes .missingSize) (fun sizes =>
  Res.andThen (require r.1.typesL .missingType) (fun ts =>
  Res.andThen (require r.1.counts .missingCount) (fun counts =>
  Res.andThen (require r.1.width .missingWidth) (fun width =>
  Res.andThen (require r.1.height .missingHeight) (fun height =>
  Res.andThen (require r.1.npoints .missingPoints) (fun npoints =>
  match zip4Schema names sizes ts counts with
  | none => .panicked .unsupportedDtype
  | some fields =>
    .ok ({ fields := fields
         , width := width
         , height := height
         , npoints := npoints
         , viewpoint := r.1.viewpoint.getD Viewpoint.identity
         , encoding := r.2.1
         , version := version }, r.2.2))))))))))

/-- Classifier for the `Missing <key>` family of header errors. -/
def PcdError.isMissingHeaderField : PcdError → Bool
  | .missingVersion | .missingFields | .missingSize | .missingType
  | .missingCount | .missingWidth | .missingHeight | .missingPoints
  | .missingDataEncoding => true
  | _ => false

/-- A line the scan loop always continues past, updating the slots
deterministically (independent of their current contents). -/
def updLine (acc : HeaderAcc) (line : String) : HeaderAcc :=
  match stepLine acc line with
  | .cont a => a
  | _ => acc

/-- Lines whose processing never errs, panics or breaks, from any slot
state. -/
def GoodLine (l : String) : Prop :=
  ∀ acc : HeaderAcc, stepLine acc l = .cont (updLine acc l)

/-- The eight required non-`DATA` lines of the canonical example header. -/
def hdrKeys8 : List String :=
  ["VERSION 0.7", "FIELDS x y z", "SIZE 4 4 4", "TYPE F F F",
   "COUNT 1 1 1", "WIDTH 2", "HEIGHT 1", "POINTS 2"]

/-- The terminating `DATA` line of the canonical example header. -/
def dataLineAscii : String := "DATA ascii"

/-- The metadata the canonical example header parses to: the x/y/z `F32`
schema over a 2x1 grid, ASCII encoding, default viewpoint. -/
def mdCanon : Metadata := { mdXYZ with encoding := .Ascii }

/-- Canonical header with unequal list lengths: two FIELDS names but
single-entry SIZE/TYPE/COUNT. -/
def hdrUneq : List String :=
  ["VERSION .7", "FIELDS x y", "SIZE 4", "TYPE F", "COUNT 1",
   "WIDTH 1", "HEIGHT 1", "POINTS 1", "DATA ascii"]

/-- Header whose SIZE value is not a number. -/
def hdrBadSize : List String :=
  ["VERSION .7", "FIELDS x", "SIZE four", "TYPE F", "COUNT 1",
   "WIDTH 1", "HEIGHT 1", "POINTS 1", "DATA ascii"]

/-- Header whose (TYPE, SIZE) pair `(F, 3)` is outside the 10 valid
combinations. -/
def hdrBadPair : List String :=
  ["VERSION .7", "FIELDS x", "SIZE 3", "TYPE F", "COUNT 1",
   "WIDTH 1", "HEIGHT 1", "POINTS 1", "DATA ascii"]

/-- The metadata `hdrUneq` actually parses to: a single-field schema. -/
def mdUneq : Metadata :=
  { fields := [⟨"x", .F32, 1⟩]
  , width := 1
  , height := 1
  , npoints := 1
  , viewpoint := Viewpoint.identity
  , encoding := .Ascii
  , version := ".7" }

/-- Folding commutes with permutation when the step function commutes on
the elements of the list being folded. -/
theorem foldl_perm_of_comm {α β : Type} (f : β → α → β) :
    ∀ {l₁ l₂ : List α}, l₁.Perm l₂ →
    (∀ a ∈ l₁, ∀ b ∈ l₁, ∀ s, f (f s a) b = f (f s b) a) →
    ∀ s, l₁.foldl f s = l₂.foldl f s := by
  intro l₁ l₂ h
  induction h with
  | nil =>
      intro _ s
      rfl
  | cons x hperm ih =>
      intro hc s
      rw [List.foldl_cons, List.foldl_cons]
      exact ih (fun a ha b hb s' =>
        hc a (List.mem_cons_of_mem x ha) b (List.mem_cons_of_mem x hb) s') (f s x)
  | swap x y l =>
      intro hc s
      rw [List.foldl_cons, List.foldl_cons, List.foldl_cons, List.foldl_cons,
        hc y (by simp) x (by simp) s]
  | trans h1 h2 ih1 ih2 =>
      intro hc s
      rw [ih1 hc s]
      exact ih2 (fun a ha b hb s' =>
        hc a (h1.symm.subset ha) b (h1.symm.subset hb) s') s

/-- The scan loop runs straight through a prefix of good lines, folding
their slot updates. -/
theorem loadLoop_append_good :
    ∀ (P T : List String) (acc : HeaderAcc), (∀ l ∈ P, GoodLine l) →
      loadLoop (P ++ T) acc = loadLoop T (P.foldl updLine acc) := by
  intro P
  induction P with
  | nil =>
      intro T acc _
      rfl
  | cons l ls ih =>
      intro T acc hg
      have hstep : stepLine acc l = .cont (updLine acc l) := hg l (List.mem_cons_self l ls) acc
      rw [List.cons_append]
      show (match stepLine acc l with
        | .cont a => loadLoop (ls ++ T) a
        | .done a e => .ok (a, e, ls ++ T)
        | .fail e => .err e
        | .die p => .panicked p) = loadLoop T ((l :: ls).foldl updLine acc)
      rw [hstep, List.foldl_cons]
      exact ih T (updLine acc l) (fun x hx => hg x (List.mem_cons_of_mem l hx))

/-- Concrete 4-row store used to witness the strided-update theorems. -/
def fdSelfW : FieldData := ⟨.U8, 1, [[1], [2], [3], [4]]⟩

/-- Concrete 3-row donor store of the same dtype. -/
def fdOtherW : FieldData := ⟨.U8, 1, [[10], [20], [30]]⟩

/-- Concrete donor store with a different dtype. -/
def fdOtherI8 : FieldData := ⟨.I8, 1, [[10], [20], [30]]⟩

/-- Concrete 5-row store used to witness the slice theorem. -/
def fdSliceW : FieldData := ⟨.U8, 1, [[1], [2], [3], [4], [5]]⟩

end Pcdpy

/-- C8: `slice(0, npoints, 1)` returns the store unchanged, and for
`start ≤ stop ≤ npoints` and `step ≥ 1`, `slice(start, stop, step)` has
exactly `⌈(stop - start) / step⌉` rows, the `i`-th being the original's row
`start + i * step`. -/
theorem slice_spec :
    ∀ fd : Pcdpy.FieldData,
      fd.slice 0 fd.npoints 1 = fd ∧
      ∀ start stop step : Nat, start ≤ stop → stop ≤ fd.npoints → 1 ≤ step →
        (fd.slice start stop step).npoints = Pcdpy.ceilDivNat (stop - start) step ∧
        ∀ i, i < (fd.slice start stop step).npoints →
          (fd.slice start stop step).rows.getD i [] =
            fd.rows.getD (start + i * step) [] := by
  intro fd
  constructor
  · have h1 : Pcdpy.stridedIdx 0 fd.npoints 1 = List.range fd.rows.length := by
      unfold Pcdpy.stridedIdx
      rw [Pcdpy.numStrided_one]
      simp [Pcdpy.FieldData.npoints]
    unfold Pcdpy.FieldData.slice
    rw [h1, Pcdpy.map_getD_range]
  · intro start stop step hss hsn hstep
    constructor
    · simp only [Pcdpy.FieldData.slice, Pcdpy.FieldData.npoints, List.length_map,
        Pcdpy.stridedIdx_length]
      rfl
    · intro i hi
      have hi' : i < Pcdpy.numStrided start stop step := by
        simpa only [Pcdpy.FieldData.slice, Pcdpy.FieldData.npoints, List.length_map,
          Pcdpy.stridedIdx_length] using hi
      simp only [Pcdpy.FieldData.slice]
      unfold Pcdpy.stridedIdx
      rw [List.map_map]
      exact Pcdpy.getD_map_range _ _ _ hi' []

/-- Witness for `slice_spec`: the 5-row store is unchanged by
`slice(0, 5, 1)`, and `slice(1, 4, 2)` has `⌈3/2⌉ = 2` rows with row 1
equal to the original's row `1 + 1*2 = 3`. -/
theorem slice_spec_witness :
    Pcdpy.fdSliceW.slice 0 Pcdpy.fdSliceW.npoints 1 = Pcdpy.fdSliceW ∧
    (1 ≤ 4 ∧ 4 ≤ Pcdpy.fdSliceW.npoints ∧ 1 ≤ 2) ∧
    (Pcdpy.fdSliceW.slice 1 4 2).npoints = Pcdpy.ceilDivNat 3 2 ∧
    (Pcdpy.fdSliceW.slice 1 4 2).rows.getD 1 [] =
      Pcdpy.fdSliceW.rows.getD (1 + 1 * 2) [] := by
  obtain ⟨h0, h⟩ := slice_spec Pcdpy.fdSliceW
  obtain ⟨hlen, hrow⟩ := h 1 4 2 (by decide) (by decide) (by decide)
  exact ⟨h0, ⟨by decide, by decide, by decide⟩, hlen, hrow 1 (by decide)⟩

/-- C7: with unit steps, matching dtype and count, and valid equal-length
ranges, `update_slice_strided` succeeds and overwrites exactly the target
rows with the donor's selected rows; strided selections of different sizes
fail with the length-mismatch error, and (sizes being equal) differing
dtypes fail with the dtype-mismatch error, the store untouched either
way. -/
theorem update_slice_strided_spec :
    ∀ (self other : Pcdpy.FieldData) (oStart oStop oStep nStart nStop nStep : Nat),
      (oStep = 1 → nStep = 1 → self.dtype = other.dtype → self.count = other.count →
       oStart ≤ oStop → oStop ≤ self.npoints → nStart ≤ nStop → nStop ≤ other.npoints →
       nStop - nStart = oStop - oStart →
       (self.updateSliceStrided other oStart oStop oStep nStart nStop nStep).1 =
         .ok () ∧
       ∀ j : Nat,
         (self.updateSliceStrided other oStart oStop oStep nStart nStop nStep).2.rows.getD
             j [] =
           if oStart ≤ j ∧ j < oStop then other.rows.getD (nStart + (j - oStart)) []
           else self.rows.getD j []) ∧
      (oStep ≠ 0 → nStep ≠ 0 →
       Pcdpy.numStrided oStart oStop oStep ≠ Pcdpy.numStrided nStart nStop nStep →
       self.updateSliceStrided other oStart oStop oStep nStart nStop nStep =
         (.err .sliceLengthMismatch, self)) ∧
      (oStep ≠ 0 → nStep ≠ 0 →
       Pcdpy.numStrided oStart oStop oStep = Pcdpy.numStrided nStart nStop nStep →
       self.dtype ≠ other.dtype →
       self.updateSliceStrided other oStart oStop oStep nStart nStop nStep =
         (.err .fieldTypeMismatch, self)) := by
  intro self other oStart oStop oStep nStart nStop nStep
  refine ⟨?_, ?_, ?_⟩
  · intro ho1 hn1 hdt hcnt hoo hos hnn hns hlen
    subst ho1
    subst hn1
    have hnpt : self.npoints = self.rows.length := rfl
    have hzero : ¬((1 : Nat) = 0 ∨ (1 : Nat) = 0) := by decide
    have hnum : ¬(Pcdpy.numStrided oStart oStop 1 ≠ Pcdpy.numStrided nStart nStop 1) := by
      rw [Pcdpy.numStrided_one, Pcdpy.numStrided_one]
      omega
    have hcond : ¬(oStop < oStart ∨
        self.npoints < oStop ∨ nStop < nStart ∨ other.npoints < nStop ∨
        self.count ≠ other.count) := by
      simp only [not_or]
      exact ⟨by omega, by omega, by omega, by omega, not_not_intro hcnt⟩
    have hpairs : (Pcdpy.stridedIdx oStart oStop 1).zip (Pcdpy.stridedIdx nStart nStop 1) =
        (List.range (oStop - oStart)).map (fun t => (oStart + t, nStart + t)) := by
      unfold Pcdpy.stridedIdx
      rw [Pcdpy.numStrided_one, Pcdpy.numStrided_one, hlen, List.zip_map']
      simp [Nat.mul_one]
    simp only [Pcdpy.FieldData.updateSliceStrided]
    rw [if_neg hzero, if_neg hnum, if_neg (not_not_intro hdt), if_neg hcond, hpairs]
    refine ⟨rfl, ?_⟩
    intro j
    by_cases hj : oStart ≤ j ∧ j < oStop
    · rw [if_pos hj]
      have hkey := Pcdpy.setRows_seq_getD self.rows other.rows oStart nStart
        (oStop - oStart) (j - oStart) (by omega) (by omega)
      have hj2 : oStart + (j - oStart) = j := by omega
      rw [hj2] at hkey
      exact hkey
    · rw [if_neg hj]
      apply Pcdpy.setRows_getD_not_mem
      rw [List.map_map]
      intro hmem
      obtain ⟨t, ht, hteq⟩ := List.mem_map.mp hmem
      have ht' := List.mem_range.mp ht
      have : oStart + t = j := hteq
      omega
  · intro ho0 hn0 hne
    simp only [Pcdpy.FieldData.updateSliceStrided]
    rw [if_neg (not_or.mpr ⟨ho0, hn0⟩), if_pos hne]
  · intro ho0 hn0 heq hne
    simp only [Pcdpy.FieldData.updateSliceStrided]
    rw [if_neg (not_or.mpr ⟨ho0, hn0⟩), if_neg (not_not_intro heq), if_pos hne]

/-- Witness for `update_slice_strided_spec`: copying donor rows 0..2 into
rows 1..3 of a 4-row store succeeds and yields rows `[1],[10],[20],[4]`;
ranges 0..2 vs 0..3 fail with the length mismatch; an `I8` donor against a
`U8` store fails with the dtype mismatch. -/
theorem update_slice_strided_spec_witness :
    (Pcdpy.fdSelfW.updateSliceStrided Pcdpy.fdOtherW 1 3 1 0 2 1).1 = .ok () ∧
    (Pcdpy.fdSelfW.updateSliceStrided Pcdpy.fdOtherW 1 3 1 0 2 1).2.rows.getD 1 [] =
      [10] ∧
    (Pcdpy.fdSelfW.updateSliceStrided Pcdpy.fdOtherW 1 3 1 0 2 1).2.rows.getD 3 [] =
      [4] ∧
    Pcdpy.fdSelfW.updateSliceStrided Pcdpy.fdOtherW 0 2 1 0 3 1 =
      (.err .sliceLengthMismatch, Pcdpy.fdSelfW) ∧
    Pcdpy.fdSelfW.updateSliceStrided Pcdpy.fdOtherI8 1 3 1 0 2 1 =
      (.err .fieldTypeMismatch, Pcdpy.fdSelfW) := by
  obtain ⟨hA, _, _⟩ := update_slice_strided_spec Pcdpy.fdSelfW Pcdpy.fdOtherW 1 3 1 0 2 1
  have h1 := hA rfl rfl (by decide) (by decide) (by decide) (by decide) (by decide)
    (by decide) (by decide)
  refine ⟨h1.1, ?_, ?_, ?_, ?_⟩
  · rw [h1.2 1]
    decide
  · rw [h1.2 3]
    decide
  · exact (update_slice_strided_spec Pcdpy.fdSelfW Pcdpy.fdOtherW 0 2 1 0 3 1).2.1
      (by decide) (by decide) (by decide)
  · exact (update_slice_strided_spec Pcdpy.fdSelfW Pcdpy.fdOtherI8 1 3 1 0 2 1).2.2
      (by decide) (by decide) (by decide) (by decide)

/-- C10 (frame property): `update_slice_strided` never touches anything
outside the target strided selection — dtype, count and npoints of the
final store always equal the originals, rows not enumerated by
`(orig_range, orig_step)` keep their previous contents, and whenever the
call returns an error the store is entirely unchanged (both checks precede
any assignment). -/
theorem update_slice_strided_frame :
    ∀ (self other : Pcdpy.FieldData) (oStart oStop oStep nStart nStop nStep : Nat),
      ((self.updateSliceStrided other oStart oStop oStep nStart nStop nStep).2.dtype =
         self.dtype ∧
       (self.updateSliceStrided other oStart oStop oStep nStart nStop nStep).2.count =
         self.count ∧
       (self.updateSliceStrided other oStart oStop oStep nStart nStop nStep).2.npoints =
         self.npoints) ∧
      (∀ j : Nat, j ∉ Pcdpy.stridedIdx oStart oStop oStep →
        (self.updateSliceStrided other oStart oStop oStep nStart nStop nStep).2.rows.getD
            j [] =
          self.rows.getD j []) ∧
      (∀ e : Pcdpy.PcdError,
        (self.updateSliceStrided other oStart oStop oStep nStart nStop nStep).1 =
          .err e →
        (self.updateSliceStrided other oStart oStop oStep nStart nStop nStep).2 =
          self) := by
  intro self other oStart oStop oStep nStart nStop nStep
  simp only [Pcdpy.FieldData.updateSliceStrided]
  split
  · exact ⟨⟨rfl, rfl, rfl⟩, fun j _ => rfl, fun e _ => rfl⟩
  split
  · exact ⟨⟨rfl, rfl, rfl⟩, fun j _ => rfl, fun e _ => rfl⟩
  · split
    · exact ⟨⟨rfl, rfl, rfl⟩, fun j _ => rfl, fun e _ => rfl⟩
    · split
      · exact ⟨⟨rfl, rfl, rfl⟩, fun j _ => rfl, fun e _ => rfl⟩
      · rename_i hlen hdt hok
        have hle : (Pcdpy.stridedIdx oStart oStop oStep).length ≤
            (Pcdpy.stridedIdx nStart nStop nStep).length := by
          rw [Pcdpy.stridedIdx_length, Pcdpy.stridedIdx_length]
          have := not_not.mp hlen
          omega
        refine ⟨⟨rfl, rfl, ?_⟩, ?_, ?_⟩
        · show (Pcdpy.setRows self.rows other.rows _).length = self.rows.length
          exact Pcdpy.setRows_length _ _ _
        · intro j hj
          apply Pcdpy.setRows_getD_not_mem
          rw [List.map_fst_zip _ _ hle]
          exact hj
        · intro e he
          exact absurd he (by simp)

/-- Witness for `update_slice_strided_frame`: row 0 (outside the target
selection 1..3) keeps its value after a successful update, and the failing
length-mismatch call leaves the store unchanged. -/
theorem update_slice_strided_frame_witness :
    (Pcdpy.fdSelfW.updateSliceStrided Pcdpy.fdOtherW 1 3 1 0 2 1).2.rows.getD 0 [] =
      Pcdpy.fdSelfW.rows.getD 0 [] ∧
    (Pcdpy.fdSelfW.updateSliceStrided Pcdpy.fdOtherW 0 2 1 0 3 1).2 = Pcdpy.fdSelfW := by
  obtain ⟨_, hframe, _⟩ :=
    update_slice_strided_frame Pcdpy.fdSelfW Pcdpy.fdOtherW 1 3 1 0 2 1
  obtain ⟨_, _, herr⟩ :=
    update_slice_strided_frame Pcdpy.fdSelfW Pcdpy.fdOtherW 0 2 1 0 3 1
  exact ⟨hframe 0 (by decide), herr .sliceLengthMismatch (by decide)⟩

/-- C1 (code bug evaluated at the spec's example): reading the
`binary_compressed` payload whose decompressed buffer is the column-major
x, y, z float columns yields a point cloud whose fields are ALL ZERO —
identical to the freshly allocated cloud — because `read_compressed`
discards the `decompress` result and assigns from the zero-filled
`uncompressed_buf`. Decoding the first field's slice of the real
decompressed buffer would give the bit patterns of 1.0 and 4.0
(1065353216 and 1082130432), which differ from the zero rows actually
stored. -/
theorem read_compressed_zero_buffer_bug :
    Pcdpy.PointCloud.readCompressed (Pcdpy.PointCloud.new Pcdpy.mdXYZ)
        (fun _ _ => some Pcdpy.colBufXYZ) Pcdpy.payloadXYZ =
      .ok (Pcdpy.PointCloud.new Pcdpy.mdXYZ) ∧
    Pcdpy.lookupField (Pcdpy.PointCloud.new Pcdpy.mdXYZ).fields ("x") =
      some ⟨.F32, 1, [[0], [0]]⟩ ∧
    (Pcdpy.chunksExact 4 (Pcdpy.colBufXYZ.take 8)).map (Pcdpy.decodeElem .F32) =
      [1065353216, 1082130432] ∧
    Pcdpy.reshapeRows 2 1 [1065353216, 1082130432] ≠ [[(0 : Int)], [0]] := by
  exact ⟨by decide, by decide, by decide, by decide⟩

/-- C2 (code bug): `PointCloud::to_pcd_file` is an unimplemented `todo!()`
stub — every attempt to write a point cloud panics, so no write/read-back
round trip succeeds for any encoding. -/
theorem to_pcd_file_unimplemented :
    ∀ (pc : Pcdpy.PointCloud) (path : String),
      pc.toPcdFile path = .panicked .todoUnimplemented ∧
      pc.toPcdFile path ≠ .ok () := by
  intro pc path
  exact ⟨rfl, fun h => Pcdpy.Res.noConfusion h⟩

/-- C4 (code bug evaluated at a concrete input): a freshly constructed
cloud over the schema `v : U8, count 3`, npoints 2, width 2, height 1
satisfies every invariant the claim lists — area, matching field counts,
matching name and dtype, and a stored row count equal to `npoints` — yet
`check_pointcloud` rejects it with the length-mismatch error, because the
source compares `FieldData::len()` (total elements, `2 * 3 = 6`) against
`npoints` (2). -/
theorem check_pointcloud_rejects_vector_field :
    Pcdpy.pcVec.checkPointcloud = .err .fieldLengthMismatch ∧
    Pcdpy.pcVec.metadata.width * Pcdpy.pcVec.metadata.height =
      Pcdpy.pcVec.metadata.npoints ∧
    Pcdpy.pcVec.metadata.fields.length = Pcdpy.pcVec.fields.length ∧
    Pcdpy.lookupField Pcdpy.pcVec.fields ("v") =
      some (Pcdpy.FieldData.new .U8 2 3) ∧
    (Pcdpy.FieldData.new .U8 2 3).dtype = .U8 ∧
    (Pcdpy.FieldData.new .U8 2 3).npoints = Pcdpy.pcVec.metadata.npoints ∧
    (Pcdpy.FieldData.new .U8 2 3).len = 6 := by
  exact ⟨by decide, by decide, by decide, by decide, by decide, by decide, by decide⟩

/-- Each of the eight canonical key lines always continues the scan loop,
updating only its own slot. -/
theorem hdrKeys8_good : ∀ l ∈ Pcdpy.hdrKeys8, Pcdpy.GoodLine l := by
  intro l hl
  fin_cases hl <;> intro acc <;> rfl

/-- Slot updates of the eight canonical key lines commute pairwise. -/
theorem hdrKeys8_comm : ∀ a ∈ Pcdpy.hdrKeys8, ∀ b ∈ Pcdpy.hdrKeys8,
    ∀ acc : Pcdpy.HeaderAcc,
      Pcdpy.updLine (Pcdpy.updLine acc a) b = Pcdpy.updLine (Pcdpy.updLine acc b) a := by
  intro a ha b hb
  fin_cases ha <;> fin_cases hb <;> intro acc <;> rfl

/-- C5 (code bug evaluated at concrete headers): a header whose FIELDS
list is longer than its SIZE/TYPE/COUNT lists parses SUCCESSFULLY with the
schema silently truncated to the shortest list; a non-numeric SIZE value
panics in `parse().unwrap()`; a (TYPE, SIZE) pair outside the 10 valid
combinations panics in `Dtype::from_type_size` — none of these is returned
to the caller as a parse error. -/
theorem load_metadata_truncates_and_aborts :
    Pcdpy.loadMetadata Pcdpy.hdrUneq = .ok (Pcdpy.mdUneq, []) ∧
    Pcdpy.mdUneq.fields = [⟨"x", .F32, 1⟩] ∧
    Pcdpy.loadMetadata Pcdpy.hdrBadSize = .panicked .unwrapFailed ∧
    Pcdpy.loadMetadata Pcdpy.hdrBadPair = .panicked .unsupportedDtype := by
  exact ⟨by decide, by decide, by decide, by decide⟩

/-- C6 counterexample: a header carrying every required key EXCEPT `DATA`
fails with the unexpected-EOF error, not with a missing-header-field
error. -/
theorem missing_data_gives_eof_error :
    Pcdpy.loadMetadata Pcdpy.hdrKeys8 = .err .unexpectedEof ∧
    Pcdpy.PcdError.unexpectedEof.isMissingHeaderField = false := by
  exact ⟨by decide, by decide⟩

/-- C6 amended: header parsing accepts the eight required non-`DATA` key
lines in ANY order before the terminating `DATA` line, yielding the same
metadata; omitting any one of VERSION, FIELDS, SIZE, TYPE, COUNT, WIDTH,
HEIGHT, POINTS fails with that key's missing-field error; a missing `DATA`
line instead fails with the unexpected-EOF error (previous theorem); and
with no VIEWPOINT line the viewpoint defaults to the identity pose
(0,0,0,1,0,0,0). -/
theorem header_keys_any_order_and_defaults :
    (∀ P : List String, P.Perm Pcdpy.hdrKeys8 →
      Pcdpy.loadMetadata (P ++ [Pcdpy.dataLineAscii]) = .ok (Pcdpy.mdCanon, [])) ∧
    Pcdpy.loadMetadata ((Pcdpy.hdrKeys8.eraseIdx 0) ++ [Pcdpy.dataLineAscii]) =
      .err .missingVersion ∧
    Pcdpy.loadMetadata ((Pcdpy.hdrKeys8.eraseIdx 1) ++ [Pcdpy.dataLineAscii]) =
      .err .missingFields ∧
    Pcdpy.loadMetadata ((Pcdpy.hdrKeys8.eraseIdx 2) ++ [Pcdpy.dataLineAscii]) =
      .err .missingSize ∧
    Pcdpy.loadMetadata ((Pcdpy.hdrKeys8.eraseIdx 3) ++ [Pcdpy.dataLineAscii]) =
      .err .missingType ∧
    Pcdpy.loadMetadata ((Pcdpy.hdrKeys8.eraseIdx 4) ++ [Pcdpy.dataLineAscii]) =
      .err .missingCount ∧
    Pcdpy.loadMetadata ((Pcdpy.hdrKeys8.eraseIdx 5) ++ [Pcdpy.dataLineAscii]) =
      .err .missingWidth ∧
    Pcdpy.loadMetadata ((Pcdpy.hdrKeys8.eraseIdx 6) ++ [Pcdpy.dataLineAscii]) =
      .err .missingHeight ∧
    Pcdpy.loadMetadata ((Pcdpy.hdrKeys8.eraseIdx 7) ++ [Pcdpy.dataLineAscii]) =
      .err .missingPoints ∧
    Pcdpy.mdCanon.viewpoint = Pcdpy.Viewpoint.identity := by
  refine ⟨?_, by decide, by decide, by decide, by decide, by decide, by decide,
    by decide, by decide, by decide⟩
  intro P hp
  have hgood : ∀ l ∈ P, Pcdpy.GoodLine l := fun l hl => hdrKeys8_good l (hp.subset hl)
  have hcomm : ∀ a ∈ P, ∀ b ∈ P, ∀ s : Pcdpy.HeaderAcc,
      Pcdpy.updLine (Pcdpy.updLine s a) b = Pcdpy.updLine (Pcdpy.updLine s b) a :=
    fun a ha b hb s => hdrKeys8_comm a (hp.subset ha) b (hp.subset hb) s
  unfold Pcdpy.loadMetadata
  rw [Pcdpy.loadLoop_append_good P [Pcdpy.dataLineAscii] Pcdpy.HeaderAcc.init hgood,
    Pcdpy.foldl_perm_of_comm Pcdpy.updLine hp hcomm Pcdpy.HeaderAcc.init]
  decide

/-- Witness for `header_keys_any_order_and_defaults`: the reversed key
lines are a permutation of the canonical ones, and the reversed header
parses to the same metadata. -/
theorem header_keys_any_order_and_defaults_witness :
    Pcdpy.hdrKeys8.reverse.Perm Pcdpy.hdrKeys8 ∧
    Pcdpy.loadMetadata (Pcdpy.hdrKeys8.reverse ++ [Pcdpy.dataLineAscii]) =
      .ok (Pcdpy.mdCanon, []) := by
  have hp : Pcdpy.hdrKeys8.reverse.Perm Pcdpy.hdrKeys8 :=
    List.reverse_perm Pcdpy.hdrKeys8
  exact ⟨hp, (header_keys_any_order_and_defaults).1 Pcdpy.hdrKeys8.reverse hp⟩

/-- C9: each of the 10 `Dtype` values round-trips through both conversion
pairs — `from_type_size (get_type d) (get_size d) = d` and
`from_numpy_dtype (as_numpy_dtype d) = some d` — and the (category, width)
pair and the external name each determine the `Dtype` uniquely. -/
theorem dtype_conversions_bijective :
    ∀ d : Pcdpy.Dtype,
      Pcdpy.Dtype.fromTypeSize d.getType d.getSize = some d ∧
      Pcdpy.Dtype.fromNumpyDtype d.asNumpyDtype = some d ∧
      (∀ d' : Pcdpy.Dtype,
        d.getType = d'.getType → d.getSize = d'.getSize → d = d') ∧
      (∀ d' : Pcdpy.Dtype, d.asNumpyDtype = d'.asNumpyDtype → d = d') := by
  intro d
  refine ⟨by cases d <;> decide, by cases d <;> decide, ?_, ?_⟩
  · intro d' h1 h2
    cases d <;> cases d' <;> first | rfl | (exfalso; revert h1 h2; decide)
  · intro d' h
    cases d <;> cases d' <;> first | rfl | (exfalso; revert h; decide)

/-- Witness for `dtype_conversions_bijective`: instantiated at `F32`, with
the uniqueness hypotheses discharged at `F32` itself. -/
theorem dtype_conversions_bijective_witness :
    Pcdpy.Dtype.fromTypeSize (Pcdpy.Dtype.F32.getType) (Pcdpy.Dtype.F32.getSize) =
      some Pcdpy.Dtype.F32 ∧ Pcdpy.Dtype.F32 = Pcdpy.Dtype.F32 := by
  obtain ⟨h1, _, h3, _⟩ := dtype_conversions_bijective Pcdpy.Dtype.F32
  exact ⟨h1, h3 Pcdpy.Dtype.F32 rfl rfl⟩

/-- C3 counterexample: `trim` does not restore `width * height = npoints`.
Starting from a valid 2x2 grid (height 2 > 0) and trimming to 3 points, the
recomputed shape is 2x2, and `2 * 2 ≠ 3`. -/
theorem trim_breaks_area_invariant :
    0 < Pcdpy.mdGrid22.height ∧
    (Pcdpy.mdGrid22.trim 3).npoints = 3 ∧
    (Pcdpy.mdGrid22.trim 3).width = 2 ∧
    (Pcdpy.mdGrid22.trim 3).height = 2 ∧
    (Pcdpy.mdGrid22.trim 3).width * (Pcdpy.mdGrid22.trim 3).height ≠
      (Pcdpy.mdGrid22.trim 3).npoints := by
  refine ⟨by decide, rfl, rfl, rfl, by decide⟩

/-- C3 amended: for `height > 0` and `n > 0` (both within the `f32`-exact
range `≤ 2^24`), `trim n` sets `npoints = n`, recomputes
`width = ⌈n / height⌉` and then `height = ⌈n / width⌉`, and guarantees
`width * height ≥ npoints` — but not equality. -/
theorem trim_area_covers_npoints (md : Pcdpy.Metadata) (n : Nat)
    (hh : 0 < md.height) (hn : 0 < n)
    (_hh24 : md.height ≤ 2 ^ 24) (_hn24 : n ≤ 2 ^ 24) :
    (md.trim n).npoints = n ∧
    (md.trim n).width = Pcdpy.ceilDivNat n md.height ∧
    (md.trim n).height = Pcdpy.ceilDivNat n ((md.trim n).width) ∧
    n ≤ (md.trim n).width * (md.trim n).height := by
  refine ⟨rfl, rfl, rfl, ?_⟩
  have hw : 0 < Pcdpy.ceilDivNat n md.height := Pcdpy.ceilDivNat_pos n md.height hn hh
  exact Pcdpy.le_mul_ceilDivNat n (Pcdpy.ceilDivNat n md.height) hw

/-- Witness for `trim_area_covers_npoints` at the counterexample input:
height 2 > 0, n = 3, and the trimmed 2x2 shape covers the 3 points. -/
theorem trim_area_covers_npoints_witness :
    0 < Pcdpy.mdGrid22.height ∧ 0 < 3 ∧
    Pcdpy.mdGrid22.height ≤ 2 ^ 24 ∧ 3 ≤ 2 ^ 24 ∧
    3 ≤ (Pcdpy.mdGrid22.trim 3).width * (Pcdpy.mdGrid22.trim 3).height := by
  refine ⟨by decide, by decide, by decide, by decide, ?_⟩
  exact (trim_area_covers_npoints Pcdpy.mdGrid22 3 (by decide) (by decide)
    (by decide) (by decide)).2.2.2
